import Mathlib

/-! Verification of the Pustaka multi-draft summarization core.

A shallow embedding of the summarization pipeline in `backend/summarizer.py`,
`backend/summarizer_utils.py` and `backend/prompts/constants.py` and `backend/prompts/builders.py`.

Python strings are modelled as lists of code points (`Str := List Nat`); the
character-class predicates (`\w`, `\s`, `\d`, `str.upper`) are modelled over
the ASCII range, which is the range the section tables and labels use.
External text utilities whose internals no claim depends on — the regex
cleanup `summarizer_utils.clean_output`, the output formatter
`summarizer_utils.normalize_output_format`, and `difflib.SequenceMatcher`'s
similarity ratio — enter the model as explicit function parameters, so every
control-flow and data-flow decision of the orchestrators is embedded
faithfully while the opaque text transforms stay parametric.
-/

/-- Python strings as lists of Unicode code points. -/
abbrev Str := List Nat

/-- Convert a Lean string literal to the code-point model. -/
def strL (s : String) : Str := s.toList.map Char.toNat

/-- ASCII model of the regex class `\w` (word character: letter, digit or underscore). -/
def isWordN (n : Nat) : Bool :=
  (48 ≤ n && n ≤ 57) || (65 ≤ n && n ≤ 90) || (97 ≤ n && n ≤ 122) || n == 95

/-- ASCII model of the regex class `\s` (whitespace). -/
def isSpaceN (n : Nat) : Bool :=
  n == 32 || n == 9 || n == 10 || n == 13 || n == 11 || n == 12

/-- ASCII model of the regex class `\d` (decimal digit). -/
def isDigitN (n : Nat) : Bool := 48 ≤ n && n ≤ 57

/-- Characters kept by the `clean_header` pattern `[^\w\s&]` of
`summarizer_utils.REGEX_PATTERNS`: word characters, whitespace and `&` (38). -/
def keepN (n : Nat) : Bool := isWordN n || isSpaceN n || n == 38

/-- ASCII model of `str.upper` on one code point. -/
def upCh (n : Nat) : Nat := if 97 ≤ n && n ≤ 122 then n - 32 else n

/-- Model of `str.upper`. -/
def upperStr (s : Str) : Str := s.map upCh

/-- Model of Python `str.strip()` (default whitespace strip on both ends). -/
def trimWS (s : Str) : Str :=
  ((s.dropWhile isSpaceN).reverse.dropWhile isSpaceN).reverse

/-- Model of `re.sub(r'\s+', ' ', s)`: every maximal whitespace run becomes one space. -/
def collapseWS : Str → Str
  | [] => []
  | [c] => if isSpaceN c then [32] else [c]
  | a :: b :: t =>
    if isSpaceN a && isSpaceN b then collapseWS (b :: t)
    else (if isSpaceN a then 32 else a) :: collapseWS (b :: t)

/-- Characters matched by the leading-junk pattern `^[\d\.\)\s]+` of
`normalize_section_name` (digits, `.` = 46, `)` = 41, whitespace). -/
def isLeadJunkN (n : Nat) : Bool := isDigitN n || n == 46 || n == 41 || isSpaceN n

/-- Model of `re.sub(r'^[\d\.\)\s]+', '', s)`. -/
def stripLead (s : Str) : Str := s.dropWhile isLeadJunkN

/-- Model of `name.lstrip('#').strip()` applied when the name starts with `#` (35). -/
def hashStrip (s : Str) : Str :=
  if s.head? == some 35 then trimWS (s.dropWhile (· == 35)) else s

/-- The cleaning phase of `normalize_section_name` (summarizer_utils.py lines 37-39):
remove `[^\w\s&]`, collapse whitespace, strip, upper-case, then strip the leading
ordinal junk and strip again. -/
def cleanPhase (s : Str) : Str :=
  trimWS (stripLead (upperStr (trimWS (collapseWS (s.filter keepN)))))

/-- Boolean substring test, modelling Python's `needle in hay` on strings:
prefix test helper. -/
def isPrefixB : Str → Str → Bool
  | [], _ => true
  | _ :: _, [] => false
  | a :: as, b :: bs => a == b && isPrefixB as bs

/-- Boolean substring test, modelling Python's `needle in hay` on strings. -/
def isInfixB (needle : Str) : Str → Bool
  | [] => needle.isEmpty
  | c :: t => isPrefixB needle (c :: t) || isInfixB needle t

/-- First value bound to an exactly-equal key, modelling `d[k]` after `k in d`
on a Python dict (dicts iterate in insertion order). -/
def dictLookup (m : List (Str × Str)) (k : Str) : Option Str :=
  (m.find? (fun p => p.1 == k)).map (·.2)

/-- STANDARD_SECTIONS from backend/prompts/constants.py. -/
def STANDARD_SECTIONS : List Str :=
  [strL "EXECUTIVE SUMMARY & CORE THESIS",
   strL "ANALYTICAL FRAMEWORK",
   strL "MARKET & INTELLECTUAL POSITIONING"]

/-- NAME_MAPPINGS from backend/prompts/constants.py (insertion order preserved). -/
def NAME_MAPPINGS : List (Str × Str) :=
  [(strL "EXECUTIVE ANALYTICAL BRIEF", strL "EXECUTIVE SUMMARY & CORE THESIS"),
   (strL "CORE THESIS & KEY ARGUMENTS", strL "EXECUTIVE SUMMARY & CORE THESIS"),
   (strL "REPRESENTATIVE SYNTHESIS", strL "EXECUTIVE SUMMARY & CORE THESIS"),
   (strL "CONCEPTUAL ARCHITECTURE", strL "ANALYTICAL FRAMEWORK"),
   (strL "GLOSSARY OF DENSITY", strL "ANALYTICAL FRAMEWORK"),
   (strL "REASONING BLUEPRINT", strL "ANALYTICAL FRAMEWORK"),
   (strL "COMPARATIVE POSITIONING", strL "MARKET & INTELLECTUAL POSITIONING")]

/-- Model of `clean.split('(')[0]`: the prefix before the first `(` (40). -/
def beforeParen (s : Str) : Str := s.takeWhile (fun c => !(c == 40))

/-- First alias-table value whose key contains `base` or is contained in it,
modelling the `for key, val in name_mappings.items(): if base in key or key in base`
loop of `normalize_section_name`. -/
def substrMatch (m : List (Str × Str)) (base : Str) : Option Str :=
  (m.find? (fun p => isInfixB base p.1 || isInfixB p.1 base)).map (·.2)

/-- normalize_section_name from backend/summarizer_utils.py (lines 33-50), with
the alias table as a parameter exactly as in the source. -/
def normalize_section_name (mappings : List (Str × Str)) (name : Str) : Str :=
  let name1 := hashStrip name
  let clean := cleanPhase name1
  match dictLookup mappings clean with
  | some v => v
  | none =>
    let base := trimWS (beforeParen clean)
    match substrMatch mappings base with
    | some v => v
    | none => clean

/-! ## Normal form of `cleanPhase`, towards idempotence of section normalization -/

/-- Adjacent characters are not both whitespace. -/
def notBothSp (a b : Nat) : Prop := isSpaceN a = false ∨ isSpaceN b = false

/-- The shape of strings produced by `cleanPhase`: only kept characters, all
upper-case stable, whitespace normalized to single interior spaces, and no
leading ordinal junk. -/
structure IsNormal (s : Str) : Prop where
  kept : ∀ c ∈ s, keepN c = true
  up : ∀ c ∈ s, upCh c = c
  sp32 : ∀ c ∈ s, isSpaceN c = true → c = 32
  noAdj : s.Chain' notBothSp
  headOk : ∀ c ∈ s.head?, isSpaceN c = false ∧ isDigitN c = false
  lastOk : ∀ c ∈ s.getLast?, isSpaceN c = false

/-! ## Pipeline data model: usage, section matching, synthesis tasks -/

/-- TokenUsage counters. -/
structure Usage where
  promptTokens : Nat
  completionTokens : Nat
  totalTokens : Nat
deriving DecidableEq, Repr

/-- The zero-initialised accumulator `{"prompt_tokens": 0, ...}`. -/
def zeroUsage : Usage := ⟨0, 0, 0⟩

/-- Componentwise accumulation `for k in total_usage: total_usage[k] += u[k]`. -/
def addUsage (a b : Usage) : Usage :=
  ⟨a.promptTokens + b.promptTokens, a.completionTokens + b.completionTokens,
   a.totalTokens + b.totalTokens⟩

/-- Python `sep.join(parts)`. -/
def joinSep (sep : Str) : List Str → Str
  | [] => []
  | [x] => x
  | x :: y :: t => x ++ sep ++ joinSep sep (y :: t)

/-- Two newlines, the separator used for fragment joining and draft concatenation. -/
def nl2 : Str := strL "\n\n"

/-- _match_section_in_draft (summarizer.py lines 346-369): direct dict hit,
then alias-source collection joined with blank lines, then normalized-key
fallback scan. -/
def match_section_in_draft (target : Str) (draft_sections : List (Str × Str)) : Option Str :=
  match dictLookup draft_sections target with
  | some v => some v
  | none =>
    let normTarget := normalize_section_name NAME_MAPPINGS target
    let potential_sources :=
      (NAME_MAPPINGS.filter
        (fun p => normalize_section_name NAME_MAPPINGS p.2 == normTarget)).map (·.1)
    let found_contents := (potential_sources.map (fun old_name =>
        let normOld := normalize_section_name NAME_MAPPINGS old_name
        (draft_sections.filter
          (fun kv => normalize_section_name NAME_MAPPINGS kv.1 == normOld)).map (·.2))).flatten
    if !found_contents.isEmpty then some (joinSep nl2 found_contents)
    else
      (draft_sections.find?
        (fun kv => normalize_section_name NAME_MAPPINGS kv.1 == normTarget)).map (·.2)

/-- SynthesisTask: the per-section task dict built by summarize_synthesize. -/
structure SynthTask where
  name : Str
  contents : List Str
  use_full_context : Bool
  index : Nat
deriving DecidableEq, Repr

/-- One iteration of the section_tasks construction loop of summarize_synthesize
(summarizer.py lines 234-253) for canonical section `name` at position `i`:
collect truthy matches from every draft's extracted sections; with zero matches
fall back to the whole drafts and set use_full_context. -/
def buildSectionTask (drafts : List Str) (all_sections_data : List (List (Str × Str)))
    (name : Str) (i : Nat) : SynthTask :=
  let section_contents := all_sections_data.filterMap (fun sections =>
    match match_section_in_draft name sections with
    | some v => if v.isEmpty then none else some v
    | none => none)
  let use_full_context := section_contents.isEmpty
  { name := name,
    contents := if use_full_context then drafts else section_contents,
    use_full_context := use_full_context,
    index := i }

/-- The full section_tasks list: the loop over `enumerate(STANDARD_SECTIONS)`. -/
def buildSectionTasks (drafts : List Str)
    (all_sections_data : List (List (Str × Str))) : List SynthTask :=
  STANDARD_SECTIONS.enum.map (fun p => buildSectionTask drafts all_sections_data p.2 p.1)

/-- Python truthiness of `c and str(c).strip()`: non-empty with a non-whitespace
character. -/
def hasContentB (c : Str) : Bool := !c.isEmpty && !(trimWS c).isEmpty

/-- The source fragments embedded by build_section_synthesis_prompt
(prompts/builders.py lines 132-140): invalid entries dropped, each valid entry
truncated to limit_char = 1000 (full-draft fallback) or 4000 characters. -/
def synthesis_prompt_sources (contents : List Str) (full : Bool) : List Str :=
  let valid_contents := contents.filter hasContentB
  let limit_char := if full then 1000 else 4000
  valid_contents.map (fun c => c.take limit_char)

/-! ## Generation Client call with bounded retry (_synthesize_section) -/

/-- Behaviour of one backend attempt: a returned completion (content plus
usage) or a raised exception carrying its message. -/
inductive ApiStep where
  | success (content : Str) (usage : Usage)
  | exn (msg : Str)

/-- Result dict of _synthesize_section: content plus usage, or an error with
its error_type string. -/
inductive SynthOutcome where
  | ok (content : Str) (usage : Usage)
  | err (error_type : Str)
deriving DecidableEq, Repr

/-- ASCII model of `str.lower` on one code point. -/
def downCh (n : Nat) : Nat := if 65 ≤ n && n ≤ 90 then n + 32 else n

/-- ASCII model of `str.lower`. -/
def lowerStr (s : Str) : Str := s.map downCh

/-- The exception classification of _synthesize_section (lines 191-209):
429/rate, then timeout, then context/length, else generic. -/
def classify_error (msg : Str) : Str :=
  if isInfixB (strL "429") msg || isInfixB (strL "rate") (lowerStr msg) then
    strL "RateLimitError"
  else if isInfixB (strL "timeout") (lowerStr msg) then strL "TimeoutError"
  else if isInfixB (strL "context") (lowerStr msg) || isInfixB (strL "length") (lowerStr msg) then
    strL "ContextLengthError"
  else strL "GenericError"

/-- The retry loop body of _synthesize_section; `fuel` is the number of loop
indices left (i = max_retries - fuel), `calls` counts backend invocations.
Whitespace-only content returns an EmptyContent error at once; a
ContextLengthError breaks out of the loop (reaching the final
"Unknown failure" return); other exceptions retry until the last index. -/
def synthesize_section_go (cleanF : Str → Str) (backend : Nat → ApiStep)
    (max_retries : Nat) : Nat → Nat → SynthOutcome × Nat
  | 0, calls => (.err (strL "Unknown"), calls)
  | fuel + 1, calls =>
    match backend (max_retries - (fuel + 1)) with
    | .success content u =>
      if (trimWS content).isEmpty then (.err (strL "EmptyContent"), calls + 1)
      else (.ok (cleanF content) u, calls + 1)
    | .exn msg =>
      let error_type := classify_error msg
      if error_type == strL "ContextLengthError" then (.err (strL "Unknown"), calls + 1)
      else if fuel == 0 then (.err error_type, calls + 1)
      else synthesize_section_go cleanF backend max_retries fuel (calls + 1)

/-- _synthesize_section (summarizer.py lines 157-214), OpenAI-compatible client
path: the outcome dict together with the number of Generation Client calls
issued. `backend i` is the behaviour of attempt i; `cleanF` is
summarizer_utils.clean_output. -/
def synthesize_section (cleanF : Str → Str) (backend : Nat → ApiStep)
    (max_retries : Nat) : SynthOutcome × Nat :=
  synthesize_section_go cleanF backend max_retries max_retries 0

/-! ## Section dominance labelling, reconstruction and rescue -/

/-- Python `max` on a similarity list (never applied to an empty list). -/
def listMaxQ : List ℚ → ℚ
  | [] => 0
  | x :: xs => xs.foldl max x

/-- Decimal digits of a natural number, for the f-string draft label. -/
def natDigits (n : Nat) : Str := (Nat.toDigits 10 n).map Char.toNat

/-- The per-section source label computed by summarize_synthesize
(summarizer.py lines 296-301) once a section result arrives: for a
non-fallback task with fragments, the best-matching fragment index wins
"draft_k_dominant" above ratio 0.7, otherwise "merged"; fallback or empty
tasks are labelled "generated". `simF` models
difflib.SequenceMatcher(None, a, b).ratio(). -/
def section_dominance_label (simF : Str → Str → ℚ) (task : SynthTask)
    (resContent : Str) : Str :=
  if !task.use_full_context && !task.contents.isEmpty then
    let sims := task.contents.map (fun c => simF c resContent)
    let dom := sims.indexOf (listMaxQ sims) + 1
    if listMaxQ sims > 7/10 then strL "draft_" ++ natDigits dom ++ strL "_dominant"
    else strL "merged"
  else strL "generated"

/-- The rescue payload prefix of summarize_synthesize line 335. -/
def rescueLabel : Str := strL "# SYNTHETIC CONSOLIDATION (FALLBACK)\n\n"

/-- Document reconstruction of summarize_synthesize (lines 312-325): canonical
sections in their defined order, each resolved against the synthesized keys by
normalized-name equality, rendered as a heading, the content and a blank part,
joined with newlines and stripped; the references markdown is appended when
non-empty. -/
def reconstruct_document (synthesized_sections : List (Str × Str))
    (refs_markdown : Str) : Str :=
  let final_parts := (STANDARD_SECTIONS.map (fun std_name =>
    match synthesized_sections.find? (fun kv =>
        normalize_section_name NAME_MAPPINGS kv.1 ==
          normalize_section_name NAME_MAPPINGS std_name) with
    | some kv => [strL "## " ++ std_name, kv.2, ([] : Str)]
    | none => [])).flatten
  let content := trimWS (joinSep (strL "\n") final_parts)
  if !refs_markdown.isEmpty then content ++ refs_markdown else content

/-- The emitted content with the rescue policy (summarizer.py lines 327-335):
below 500 characters the reconstruction is discarded for the labeled raw
concatenation of the first two whole drafts. -/
def synthesis_payload (synthesized_sections : List (Str × Str)) (refs_markdown : Str)
    (drafts : List Str) : Str :=
  let content := reconstruct_document synthesized_sections refs_markdown
  if content.length < 500 then rescueLabel ++ joinSep nl2 (drafts.take 2)
  else content

/-! ## Diversity analyzer (summarizer_utils.calculate_draft_diversity) -/

/-- All index-ordered pairs, modelling the nested `for i ... for j in range(i+1, ...)`. -/
def allPairs : List Str → List (Str × Str)
  | [] => []
  | x :: xs => xs.map (fun y => (x, y)) ++ allPairs xs

/-- Sum of a rational list (the `tot` accumulator). -/
def sumQ (l : List ℚ) : ℚ := l.foldr (· + ·) 0

/-- Python banker's rounding to an integer. -/
def pyRoundInt (q : ℚ) : ℤ :=
  if q - ⌊q⌋ < 1/2 then ⌊q⌋
  else if q - ⌊q⌋ > 1/2 then ⌊q⌋ + 1
  else if ⌊q⌋ % 2 = 0 then ⌊q⌋ else ⌊q⌋ + 1

/-- Python `round(q, 3)` over the rational model of float arithmetic. -/
def pyRound3 (q : ℚ) : ℚ := (pyRoundInt (q * 1000) : ℚ) / 1000

/-- calculate_draft_diversity (summarizer_utils.py lines 88-96): fewer than
two drafts report 0.0; otherwise one minus the mean pairwise similarity of the
1000-character samples, rounded to three decimals. `simF` models
difflib.SequenceMatcher(None, a, b).ratio(). -/
def calculate_draft_diversity (simF : Str → Str → ℚ) (drafts : List Str) : ℚ :=
  if drafts.length < 2 then 0
  else
    let samples := drafts.map (fun d => d.take 1000)
    let sims := (allPairs samples).map (fun p => simF p.1 p.2)
    let tot := sumQ sims
    let cnt := sims.length
    if cnt == 0 then 0 else pyRound3 (1 - tot / (cnt : ℚ))

/-! ## Iterative refinement orchestrator (summarize_iterative_stream) -/

/-- Behaviour of one critic phase: the parsed report dict (score, issues,
fixes), or an exception escaping to the per-iteration handler. -/
inductive CriticStep where
  | report (score : ℤ) (issues : List Str) (fixes : List Str)
  | crash
deriving DecidableEq

/-- Behaviour of one refinement call: a dict with content, a dict without
content, or a raised exception. -/
inductive RefineStep where
  | ok (content : Str)
  | err
  | crash
deriving DecidableEq

/-- Deterministic schedule of backend behaviours for one run: what the critic
and the refiner produce at a given iteration number for the current draft. -/
structure IterEnv where
  critic : Nat → Str → CriticStep
  refiner : Nat → Str → List Str → List Str → RefineStep

/-- The best_draft record `{"content", "score", "iteration"}`. -/
structure BestDraft where
  content : Str
  score : ℤ
  iteration : Nat
deriving DecidableEq, Repr

/-- Loop state of summarize_iterative_stream, plus a count of refinement calls
(each successful one produces one additional draft). -/
structure IterState where
  current_draft : Str
  best_draft : BestDraft
  prev_score : ℤ
  stagnation_counter : Nat
  refine_calls : Nat
deriving DecidableEq, Repr

/-- Which gate ended the loop: the four loop_exit reasons plus the failure
breaks, recording which step failed — `refine_failed` for a refinement result
without content (the else-branch break of line 1444), `refine_raised` for an
exception raised by the refinement call and `critic_raised` for one raised
during the critic phase (both reach the except-branch break of lines
1446-1450, which the code reports identically). -/
inductive ExitReason where
  | target_met
  | acceptable
  | stagnation
  | max_iter
  | refine_failed
  | refine_raised
  | critic_raised
  | loop_end
deriving DecidableEq, Repr

/-- Result of one loop run: final state, exit gate, and the iteration number
of the last executed critic phase. -/
structure IterRun where
  state : IterState
  exit : ExitReason
  iterations : Nat
deriving DecidableEq, Repr

/-- Python `"minor" in str(issues).lower()`: some issue mentions "minor"
(the word cannot straddle the list repr punctuation). -/
def mentionsMinor (issues : List Str) : Bool :=
  issues.any (fun s => isInfixB (strL "minor") (lowerStr s))

/-- Exit gate 1 (line 1400): `score >= target_score`. -/
def gate_target (score target_score : ℤ) : Bool := score ≥ target_score

/-- Exit gate 2 (lines 1405-1406): `score >= acceptance_score and
(len(issues) <= 1 or "minor" in str(issues).lower())`. -/
def gate_acceptable (score target_score : ℤ) (issues : List Str) : Bool :=
  score ≥ target_score - 10 && (issues.length ≤ 1 || mentionsMinor issues)

/-- The stagnation-guard condition (line 1412):
`iter_num > 1 and score_delta < 5`. -/
def gate_stagnation_hit (iter_num : Nat) (score prev_score : ℤ) : Bool :=
  iter_num > 1 && score - prev_score < 5

/-- The iteration loop of summarize_iterative_stream (summarizer.py lines
1364-1450). `fuel` counts remaining loop indices (i = max_iterations - fuel):
critic, best-draft update on strictly greater score, then the four exit gates
in order (target, acceptable, stagnation, max iterations), then refinement;
refinement without content or any raised exception breaks the loop. -/
def iter_loop_go (cleanF : Str → Str) (env : IterEnv) (max_iterations : Nat)
    (target_score : ℤ) : Nat → IterState → IterRun
  | 0, st => ⟨st, .loop_end, max_iterations⟩
  | fuel + 1, st =>
    let i := max_iterations - (fuel + 1)
    let iter_num := i + 1
    match env.critic iter_num st.current_draft with
    | .crash => ⟨st, .critic_raised, iter_num⟩
    | .report score issues fixes =>
      let best :=
        if score > st.best_draft.score then BestDraft.mk st.current_draft score iter_num
        else st.best_draft
      let st1 := { st with best_draft := best }
      if gate_target score target_score then ⟨st1, .target_met, iter_num⟩
      else if gate_acceptable score target_score issues then
        ⟨st1, .acceptable, iter_num⟩
      else
        let stagHit := gate_stagnation_hit iter_num score st1.prev_score
        if stagHit && st1.stagnation_counter + 1 ≥ 2 then
          ⟨{ st1 with stagnation_counter := st1.stagnation_counter + 1 }, .stagnation, iter_num⟩
        else
          let st2 :=
            if stagHit then
              { st1 with stagnation_counter := st1.stagnation_counter + 1, prev_score := score }
            else { st1 with stagnation_counter := 0, prev_score := score }
          if i == max_iterations - 1 then ⟨st2, .max_iter, iter_num⟩
          else
            match env.refiner iter_num st2.current_draft issues fixes with
            | .ok content =>
              iter_loop_go cleanF env max_iterations target_score fuel
                { st2 with current_draft := cleanF content,
                           refine_calls := st2.refine_calls + 1 }
            | .err => ⟨st2, .refine_failed, iter_num⟩
            | .crash => ⟨st2, .refine_raised, iter_num⟩

/-- The seeded RefinementState (summarizer.py lines 1337-1356): current draft
from the initial summarize call, best seeded with score 0 at iteration 0. -/
def initIterState (initial_draft : Str) : IterState :=
  { current_draft := initial_draft,
    best_draft := ⟨initial_draft, 0, 0⟩,
    prev_score := 0,
    stagnation_counter := 0,
    refine_calls := 0 }

/-- summarize_iterative_stream's loop phase from the seeded state. -/
def summarize_iterative (cleanF : Str → Str) (env : IterEnv) (max_iterations : Nat)
    (target_score : ℤ) (initial_draft : Str) : IterRun :=
  iter_loop_go cleanF env max_iterations target_score max_iterations
    (initIterState initial_draft)

/-- The finalization phase (lines 1452-1466), which runs after every loop
exit: the emitted final content is the best draft's content through
normalize_output_format (`normF`) with the references markdown appended when
non-empty, delivered in a Done payload. -/
def iterative_final_content (normF : Str → Str) (refs_markdown : Str) (run : IterRun) : Str :=
  let final_content := normF run.state.best_draft.content
  if !refs_markdown.isEmpty then final_content ++ refs_markdown else final_content

/-- Specification of the best-draft record after a sequence of critiques: each
entry is folded in with the loop's strictly-greater replacement rule of line
1385 (`if score > state.best_draft["score"]`). -/
def bestAfter (seed : BestDraft) : List BestDraft → BestDraft
  | [] => seed
  | c :: rest =>
    bestAfter (if c.score > seed.score then ⟨c.content, c.score, c.iteration⟩ else seed) rest

/-- The critique trace of a run whose refinement fails at its last iteration:
`CritTrace cleanF env iter_num d history k` holds when, starting at iteration
`iter_num` with current draft `d`, each entry of `history` records the draft
the critic saw, the score the schedule `env` reports for it and its iteration
number at consecutive iterations through `k`; every refinement call before
iteration `k` succeeds and chains its cleaned content into the next
iteration's draft, and the refinement call at iteration `k` fails — it returns
no content or raises. -/
inductive CritTrace (cleanF : Str → Str) (env : IterEnv) :
    Nat → Str → List BestDraft → Nat → Prop where
  | last (iter_num : Nat) (d : Str) (s : ℤ) (issues fixes : List Str)
      (hcrit : env.critic iter_num d = .report s issues fixes)
      (hfail : env.refiner iter_num d issues fixes = .err ∨
        env.refiner iter_num d issues fixes = .crash) :
      CritTrace cleanF env iter_num d [⟨d, s, iter_num⟩] iter_num
  | step (iter_num : Nat) (d : Str) (s : ℤ) (issues fixes : List Str) (content : Str)
      (rest : List BestDraft) (k : Nat)
      (hcrit : env.critic iter_num d = .report s issues fixes)
      (hrefine : env.refiner iter_num d issues fixes = .ok content)
      (htail : CritTrace cleanF env (iter_num + 1) (cleanF content) rest k) :
      CritTrace cleanF env iter_num d (⟨d, s, iter_num⟩ :: rest) k

/-! ## Tournament orchestrator (summarize_tournament) -/

/-- Behaviour of the judge phase: a completed judge document with usage, or a
failure carrying the exception text. -/
inductive JudgeStep where
  | ok (content : Str) (usage : Usage)
  | fail (msg : Str)

/-- Result of summarize_tournament: the error dicts, the Done payload, or the
judging-failure dict that retains a fallback draft and the usage so far. -/
inductive TournamentResult where
  | error_empty_metadata
  | error_need_draft
  | error_no_drafts
  | done (content : Str) (usage : Usage) (draft_count : Nat)
  | judging_failed (error : Str) (fallback : Str) (usage : Usage)
deriving DecidableEq, Repr

/-- Phase-1 draft collection (summarizer.py lines 969-984), in completion
order: results with content contribute the draft and accumulate usage; failed
futures are skipped. -/
def collectDrafts : List (Option (Str × Usage)) → List Str × Usage
  | [] => ([], zeroUsage)
  | none :: rest => collectDrafts rest
  | some (c, u) :: rest =>
    let p := collectDrafts rest
    (c :: p.1, addUsage u p.2)

/-- summarize_tournament (summarizer.py lines 936-1072) with the Generation
Client behaviours supplied as data: `draft_results` are the Phase-1 futures in
completion order, `judge` the Phase-2 call; `cleanF`/`normF` are clean_output
and normalize_output_format; `refs_markdown` is appended to the judged
document. On a judge failure the error dict carries the first successful
draft as fallback together with the usage accumulated so far. -/
def summarize_tournament (cleanF normF : Str → Str) (refs_markdown : Str)
    (metadata_empty : Bool) (n : Nat)
    (draft_results : List (Option (Str × Usage))) (judge : JudgeStep) : TournamentResult :=
  if metadata_empty then .error_empty_metadata
  else if n < 1 then .error_need_draft
  else
    let p := collectDrafts draft_results
    let drafts := p.1
    let usage_total := p.2
    if drafts.isEmpty then .error_no_drafts
    else
      match judge with
      | .ok content j_usage =>
        let res_content := normF (cleanF content)
        let res_content2 :=
          if !refs_markdown.isEmpty then res_content ++ refs_markdown else res_content
        .done res_content2 (addUsage usage_total j_usage) drafts.length
      | .fail msg =>
        .judging_failed (strL "Judging failed: " ++ msg) (drafts.headD []) usage_total

/-- run_section_synthesis (summarizer.py lines 267-280): every SynthesisTask,
fallback or not, builds its prompt and invokes _synthesize_section once; the
result is the outcome together with the number of Generation Client calls
issued for the task. -/
def run_section_synthesis (cleanF : Str → Str) (backend : Nat → ApiStep)
    (max_retries : Nat) (_task : SynthTask) : SynthOutcome × Nat :=
  synthesize_section cleanF backend max_retries

/-! ## Lemmas: normal form of `cleanPhase` and idempotence (C9) -/

lemma upCh_val (c : Nat) : upCh c = if 97 ≤ c ∧ c ≤ 122 then c - 32 else c := by
  simp [upCh, Bool.and_eq_true, decide_eq_true_eq]

lemma isSpaceN_iff (c : Nat) :
    isSpaceN c = true ↔ (c = 32 ∨ c = 9 ∨ c = 10 ∨ c = 13 ∨ c = 11 ∨ c = 12) := by
  simp [isSpaceN]; tauto

lemma isDigitN_iff (c : Nat) : isDigitN c = true ↔ (48 ≤ c ∧ c ≤ 57) := by
  simp [isDigitN]

lemma keepN_iff (c : Nat) :
    keepN c = true ↔ ((48 ≤ c ∧ c ≤ 57) ∨ (65 ≤ c ∧ c ≤ 90) ∨ (97 ≤ c ∧ c ≤ 122) ∨ c = 95 ∨
      c = 32 ∨ c = 9 ∨ c = 10 ∨ c = 13 ∨ c = 11 ∨ c = 12 ∨ c = 38) := by
  simp [keepN, isWordN, isSpaceN]; tauto

lemma isLeadJunkN_iff (c : Nat) :
    isLeadJunkN c = true ↔ ((48 ≤ c ∧ c ≤ 57) ∨ c = 46 ∨ c = 41 ∨
      c = 32 ∨ c = 9 ∨ c = 10 ∨ c = 13 ∨ c = 11 ∨ c = 12) := by
  simp [isLeadJunkN, isDigitN, isSpaceN]; tauto

lemma upCh_idem (c : Nat) : upCh (upCh c) = upCh c := by
  simp only [upCh_val]; split_ifs <;> omega

lemma isSpaceN_upCh (c : Nat) : isSpaceN (upCh c) = isSpaceN c := by
  rw [Bool.eq_iff_iff, isSpaceN_iff, isSpaceN_iff, upCh_val]; split_ifs <;> omega

lemma isDigitN_upCh (c : Nat) : isDigitN (upCh c) = isDigitN c := by
  rw [Bool.eq_iff_iff, isDigitN_iff, isDigitN_iff, upCh_val]; split_ifs <;> omega

lemma keepN_upCh (c : Nat) (h : keepN c = true) : keepN (upCh c) = true := by
  rw [keepN_iff] at h ⊢; rw [upCh_val]; split_ifs <;> omega

lemma keepN_excludes (c : Nat) (h : keepN c = true) : c ≠ 46 ∧ c ≠ 41 ∧ c ≠ 35 ∧ c ≠ 40 := by
  rw [keepN_iff] at h; omega

lemma keepN_32 : keepN 32 = true := by decide

lemma collapseWS_cons2_pos {a b : Nat} {t : Str} (hab : (isSpaceN a && isSpaceN b) = true) :
    collapseWS (a :: b :: t) = collapseWS (b :: t) := by
  simp [collapseWS, hab]

lemma collapseWS_cons2_neg {a b : Nat} {t : Str} (hab : ¬(isSpaceN a && isSpaceN b) = true) :
    collapseWS (a :: b :: t) = (if isSpaceN a then 32 else a) :: collapseWS (b :: t) := by
  simp only [collapseWS, if_neg hab]

lemma collapseWS_mem {c : Nat} : ∀ {s : Str}, c ∈ collapseWS s → c = 32 ∨ c ∈ s := by
  intro s
  induction s using collapseWS.induct with
  | case1 => simp [collapseWS]
  | case2 d hd => simp [collapseWS, hd]; tauto
  | case3 d hd => simp [collapseWS, hd]; tauto
  | case4 a b t hab ih =>
    rw [collapseWS_cons2_pos hab]
    intro h
    rcases ih h with h32 | hm
    · exact Or.inl h32
    · exact Or.inr (List.mem_cons_of_mem _ hm)
  | case5 a b t hab ih =>
    rw [collapseWS_cons2_neg hab]
    intro h
    rcases List.mem_cons.mp h with rfl | hm
    · split <;> simp_all
    · rcases ih hm with h32 | hm2
      · exact Or.inl h32
      · exact Or.inr (List.mem_cons_of_mem _ hm2)

lemma collapseWS_sp32 : ∀ {s : Str}, ∀ c ∈ collapseWS s, isSpaceN c = true → c = 32 := by
  intro s
  induction s using collapseWS.induct with
  | case1 => simp [collapseWS]
  | case2 d hd => simp [collapseWS, hd]
  | case3 d hd => simp [collapseWS, hd]
  | case4 a b t hab ih =>
    rw [collapseWS_cons2_pos hab]
    exact ih
  | case5 a b t hab ih =>
    rw [collapseWS_cons2_neg hab]
    intro c hc hsp
    rcases List.mem_cons.mp hc with rfl | hm
    · split at hsp <;> simp_all
    · exact ih c hm hsp

lemma collapseWS_head (a : Nat) (t : Str) :
    (collapseWS (a :: t)).head? = some (if isSpaceN a then 32 else a) := by
  induction t generalizing a with
  | nil => simp only [collapseWS]; split <;> simp_all
  | cons b t ih =>
    simp only [collapseWS]
    split
    · rename_i hab
      rw [ih b]
      simp only [Bool.and_eq_true] at hab
      simp [hab.1, hab.2]
    · rfl

lemma collapseWS_noAdj : ∀ {s : Str}, (collapseWS s).Chain' notBothSp := by
  intro s
  induction s using collapseWS.induct with
  | case1 => simp [collapseWS]
  | case2 d hd => simp [collapseWS, hd]
  | case3 d hd => simp [collapseWS, hd]
  | case4 a b t hab ih => rw [collapseWS_cons2_pos hab]; exact ih
  | case5 a b t hab ih =>
    rw [collapseWS_cons2_neg hab]
    rw [List.chain'_cons']
    refine ⟨?_, ih⟩
    intro y hy
    rw [collapseWS_head b t] at hy
    simp only [Option.mem_def, Option.some.injEq] at hy
    subst hy
    simp only [Bool.and_eq_true, not_and] at hab
    by_cases ha : isSpaceN a = true
    · have hb : isSpaceN b = false := by
        cases hsb : isSpaceN b
        · rfl
        · exact absurd hsb (hab ha)
      right
      simp [hb]
    · left
      rw [if_neg ha]
      simpa using ha

lemma collapseWS_fix {s : Str} (h32 : ∀ c ∈ s, isSpaceN c = true → c = 32)
    (hA : s.Chain' notBothSp) : collapseWS s = s := by
  induction s using collapseWS.induct with
  | case1 => rfl
  | case2 d hd =>
    have := h32 d (by simp) hd
    simp [collapseWS, hd, this]
  | case3 d hd => simp [collapseWS, hd]
  | case4 a b t hab ih =>
    exfalso
    simp only [Bool.and_eq_true] at hab
    rcases (List.chain'_cons.mp hA).1 with h | h
    · simp [hab.1] at h
    · simp [hab.2] at h
  | case5 a b t hab ih =>
    rw [collapseWS_cons2_neg hab]
    have ha : (if isSpaceN a = true then 32 else a) = a := by
      split
      · rename_i hsa
        exact (h32 a (by simp) hsa).symm
      · rfl
    rw [ha, ih (fun c hc => h32 c (List.mem_cons_of_mem _ hc)) (List.chain'_cons.mp hA).2]

lemma chain'_dropWhile {R : Nat → Nat → Prop} {p : Nat → Bool} :
    ∀ {l : Str}, l.Chain' R → (l.dropWhile p).Chain' R := by
  intro l h
  induction l with
  | nil => simp
  | cons a t ih =>
    rw [List.dropWhile_cons]
    split
    · exact ih h.tail
    · exact h

lemma head?_dropWhile_not {p : Nat → Bool} :
    ∀ {l : Str}, ∀ c ∈ (l.dropWhile p).head?, p c = false := by
  intro l
  induction l with
  | nil => simp
  | cons a t ih =>
    rw [List.dropWhile_cons]
    split
    · exact ih
    · rename_i hp
      intro c hc
      simp only [List.head?_cons, Option.mem_def, Option.some.injEq] at hc
      subst hc
      simpa using hp

lemma dropWhile_eq_self_of_head {p : Nat → Bool} {l : Str}
    (h : ∀ c ∈ l.head?, p c = false) : l.dropWhile p = l := by
  cases l with
  | nil => rfl
  | cons a t =>
    rw [List.dropWhile_cons, if_neg]
    simp [h a (by simp)]

lemma getLast?_dropWhile_of_ne_nil {p : Nat → Bool} {l : Str}
    (h : l.dropWhile p ≠ []) : (l.dropWhile p).getLast? = l.getLast? := by
  obtain ⟨t, ht⟩ := List.dropWhile_suffix p (l := l)
  conv_rhs => rw [← ht]
  exact (List.getLast?_append_of_ne_nil _ h).symm

lemma chain'_notBothSp_reverse {l : Str} (h : l.Chain' notBothSp) :
    l.reverse.Chain' notBothSp := by
  rw [List.chain'_reverse]
  exact h.imp (fun a b hab => hab.symm)

lemma mem_trimWS {c : Nat} {s : Str} (h : c ∈ trimWS s) : c ∈ s := by
  simp only [trimWS, List.mem_reverse] at h
  have h1 := (List.dropWhile_suffix isSpaceN).sublist.subset h
  rw [List.mem_reverse] at h1
  exact (List.dropWhile_suffix isSpaceN).sublist.subset h1

lemma chain'_trimWS {s : Str} (h : s.Chain' notBothSp) : (trimWS s).Chain' notBothSp :=
  chain'_notBothSp_reverse (chain'_dropWhile (chain'_notBothSp_reverse (chain'_dropWhile h)))

lemma trimWS_head_no_sp {s : Str} : ∀ c ∈ (trimWS s).head?, isSpaceN c = false := by
  intro c hc
  simp only [trimWS] at hc
  rw [List.head?_reverse] at hc
  by_cases hnil : ((s.dropWhile isSpaceN).reverse.dropWhile isSpaceN) = []
  · simp [hnil] at hc
  · rw [getLast?_dropWhile_of_ne_nil hnil, List.getLast?_reverse] at hc
    exact head?_dropWhile_not c hc

lemma trimWS_last_no_sp {s : Str} : ∀ c ∈ (trimWS s).getLast?, isSpaceN c = false := by
  intro c hc
  simp only [trimWS] at hc
  rw [List.getLast?_reverse] at hc
  exact head?_dropWhile_not c hc

lemma trimWS_fix {s : Str} (hh : ∀ c ∈ s.head?, isSpaceN c = false)
    (hl : ∀ c ∈ s.getLast?, isSpaceN c = false) : trimWS s = s := by
  simp only [trimWS]
  rw [dropWhile_eq_self_of_head hh, dropWhile_eq_self_of_head (by
    intro c hc
    rw [List.head?_reverse] at hc
    exact hl c hc), List.reverse_reverse]

lemma trimWS_head_eq {s : Str} (hh : ∀ c ∈ s.head?, isSpaceN c = false) :
    (trimWS s).head? = s.head? ∨ trimWS s = [] := by
  simp only [trimWS]
  rw [dropWhile_eq_self_of_head hh]
  by_cases hnil : (s.reverse.dropWhile isSpaceN) = []
  · right; simp [hnil]
  · left
    rw [List.head?_reverse, getLast?_dropWhile_of_ne_nil hnil, List.getLast?_reverse]

lemma map_eq_self_of {f : Nat → Nat} {l : Str} (h : ∀ c ∈ l, f c = c) : l.map f = l := by
  induction l with
  | nil => rfl
  | cons a t ih => simp [h a (by simp), ih (fun c hc => h c (List.mem_cons_of_mem _ hc))]

lemma chain'_upperStr {s : Str} (h : s.Chain' notBothSp) : (upperStr s).Chain' notBothSp := by
  rw [upperStr, List.chain'_map]
  exact h.imp (fun a b hab => by
    rcases hab with ha | hb
    · exact Or.inl (by rw [isSpaceN_upCh]; exact ha)
    · exact Or.inr (by rw [isSpaceN_upCh]; exact hb))

lemma isLeadJunkN_false_elim {c : Nat} (h : isLeadJunkN c = false) :
    isSpaceN c = false ∧ isDigitN c = false := by
  refine ⟨?_, ?_⟩ <;> rw [Bool.eq_false_iff] <;> intro hx
  · rw [isSpaceN_iff] at hx
    have hj : isLeadJunkN c = true := by rw [isLeadJunkN_iff]; tauto
    rw [h] at hj; exact Bool.false_ne_true hj
  · rw [isDigitN_iff] at hx
    have hj : isLeadJunkN c = true := by rw [isLeadJunkN_iff]; tauto
    rw [h] at hj; exact Bool.false_ne_true hj

lemma isLeadJunkN_false_intro {c : Nat} (hs : isSpaceN c = false) (hd : isDigitN c = false)
    (h46 : c ≠ 46) (h41 : c ≠ 41) : isLeadJunkN c = false := by
  rw [Bool.eq_false_iff]
  intro hj
  rw [isLeadJunkN_iff] at hj
  have hsx : ¬(c = 32 ∨ c = 9 ∨ c = 10 ∨ c = 13 ∨ c = 11 ∨ c = 12) := by
    rw [← isSpaceN_iff]; simp [hs]
  have hdx : ¬(48 ≤ c ∧ c ≤ 57) := by
    rw [← isDigitN_iff]; simp [hd]
  tauto

/-- Every output of `cleanPhase` is in normal form. -/
lemma cleanPhase_normal (s : Str) : IsNormal (cleanPhase s) := by
  unfold cleanPhase
  set s0 := s.filter keepN with hs0
  have h0 : ∀ c ∈ s0, keepN c = true := fun c hc => List.of_mem_filter hc
  set s1 := collapseWS s0 with hs1
  have h1k : ∀ c ∈ s1, keepN c = true := by
    intro c hc
    rcases collapseWS_mem hc with rfl | hm
    · exact keepN_32
    · exact h0 c hm
  have h1sp : ∀ c ∈ s1, isSpaceN c = true → c = 32 := fun c hc => collapseWS_sp32 c hc
  have h1A : s1.Chain' notBothSp := collapseWS_noAdj
  set s2 := trimWS s1 with hs2
  have h2k : ∀ c ∈ s2, keepN c = true := fun c hc => h1k c (mem_trimWS hc)
  have h2sp : ∀ c ∈ s2, isSpaceN c = true → c = 32 := fun c hc => h1sp c (mem_trimWS hc)
  have h2A : s2.Chain' notBothSp := chain'_trimWS h1A
  set s3 := upperStr s2 with hs3
  have h3k : ∀ c ∈ s3, keepN c = true := by
    intro c hc
    rcases List.mem_map.mp hc with ⟨d, hd, rfl⟩
    exact keepN_upCh d (h2k d hd)
  have h3sp : ∀ c ∈ s3, isSpaceN c = true → c = 32 := by
    intro c hc hspc
    rcases List.mem_map.mp hc with ⟨d, hd, rfl⟩
    rw [isSpaceN_upCh] at hspc
    rw [h2sp d hd hspc]
    decide
  have h3u : ∀ c ∈ s3, upCh c = c := by
    intro c hc
    rcases List.mem_map.mp hc with ⟨d, hd, rfl⟩
    exact upCh_idem d
  have h3A : s3.Chain' notBothSp := chain'_upperStr h2A
  set s4 := stripLead s3 with hs4
  have h4sub : ∀ c ∈ s4, c ∈ s3 := fun c hc =>
    (List.dropWhile_suffix isLeadJunkN).sublist.subset hc
  have h4k : ∀ c ∈ s4, keepN c = true := fun c hc => h3k c (h4sub c hc)
  have h4sp : ∀ c ∈ s4, isSpaceN c = true → c = 32 := fun c hc => h3sp c (h4sub c hc)
  have h4u : ∀ c ∈ s4, upCh c = c := fun c hc => h3u c (h4sub c hc)
  have h4A : s4.Chain' notBothSp := chain'_dropWhile h3A
  have h4h : ∀ c ∈ s4.head?, isSpaceN c = false ∧ isDigitN c = false := by
    intro c hc
    exact isLeadJunkN_false_elim (head?_dropWhile_not (p := isLeadJunkN) c hc)
  have h4hsp : ∀ c ∈ s4.head?, isSpaceN c = false := fun c hc => (h4h c hc).1
  refine ⟨fun c hc => h4k c (mem_trimWS hc), fun c hc => h4u c (mem_trimWS hc),
    fun c hc => h4sp c (mem_trimWS hc), chain'_trimWS h4A, ?_, trimWS_last_no_sp⟩
  intro c hc
  rcases trimWS_head_eq h4hsp with heq | hnil
  · rw [heq] at hc
    exact h4h c hc
  · rw [hnil] at hc
    simp at hc

/-- Normal-form strings are fixed by `cleanPhase`. -/
lemma cleanPhase_fix {s : Str} (h : IsNormal s) : cleanPhase s = s := by
  have hf : s.filter keepN = s := List.filter_eq_self.mpr h.kept
  have hc : collapseWS s = s := collapseWS_fix h.sp32 h.noAdj
  have hh : ∀ c ∈ s.head?, isSpaceN c = false := fun c hcm => (h.headOk c hcm).1
  have ht : trimWS s = s := trimWS_fix hh h.lastOk
  have hu : upperStr s = s := map_eq_self_of h.up
  have hsl : stripLead s = s := by
    apply dropWhile_eq_self_of_head
    intro c hcm
    have h1 := (h.headOk c hcm).1
    have h2 := (h.headOk c hcm).2
    have h3 := keepN_excludes c (h.kept c (by
      cases s with
      | nil => simp at hcm
      | cons a t =>
        simp only [List.head?_cons, Option.mem_def, Option.some.injEq] at hcm
        subst hcm
        simp))
    exact isLeadJunkN_false_intro h1 h2 h3.1 h3.2.1
  rw [cleanPhase, hf, hc, ht, hu, hsl, ht]

/-- Normal-form strings are fixed by `hashStrip` (35 is not a kept character). -/
lemma hashStrip_fix {s : Str} (h : IsNormal s) : hashStrip s = s := by
  rw [hashStrip, if_neg]
  cases s with
  | nil => simp
  | cons a t =>
    have := keepN_excludes a (h.kept a (by simp))
    simp only [List.head?_cons, beq_iff_eq, Option.some.injEq]
    exact fun he => this.2.2.1 he

lemma dictLookup_mem {m : List (Str × Str)} {k v : Str} (h : dictLookup m k = some v) :
    v ∈ m.map (·.2) := by
  simp only [dictLookup, Option.map_eq_some'] at h
  obtain ⟨p, hp, rfl⟩ := h
  exact List.mem_map_of_mem _ (List.mem_of_find?_eq_some hp)

lemma substrMatch_mem {m : List (Str × Str)} {b v : Str} (h : substrMatch m b = some v) :
    v ∈ m.map (·.2) := by
  simp only [substrMatch, Option.map_eq_some'] at h
  obtain ⟨p, hp, rfl⟩ := h
  exact List.mem_map_of_mem _ (List.mem_of_find?_eq_some hp)

/-- The three canonical values of the alias table are fixed by normalization. -/
lemma normalize_fixes_canonical :
    ∀ v ∈ NAME_MAPPINGS.map (·.2), normalize_section_name NAME_MAPPINGS v = v := by
  decide

lemma beforeParen_fix {s : Str} (h : IsNormal s) : beforeParen s = s := by
  rw [beforeParen, List.takeWhile_eq_self_iff]
  intro c hc
  have := keepN_excludes c (h.kept c hc)
  simp [this.2.2.2]

/-- Normal-form strings are fixed by the whole of `normalize_section_name`'s
cleaning pipeline and fall through to the final `return clean` branch logic
with `clean = s` itself. -/
lemma normalize_of_normal {s : Str} (h : IsNormal s) :
    normalize_section_name NAME_MAPPINGS s =
      match dictLookup NAME_MAPPINGS s with
      | some v => v
      | none =>
        match substrMatch NAME_MAPPINGS s with
        | some v => v
        | none => s := by
  have hb : trimWS (beforeParen s) = s := by
    rw [beforeParen_fix h]
    exact trimWS_fix (fun c hc => (h.headOk c hc).1) h.lastOk
  rw [normalize_section_name, hashStrip_fix h, cleanPhase_fix h, hb]

/-- Every normalization result is either the cleaned string itself (with both
table probes missing) or one of the alias table's values. -/
lemma normalize_cases (m : List (Str × Str)) (x : Str) :
    (normalize_section_name m x = cleanPhase (hashStrip x) ∧
      dictLookup m (cleanPhase (hashStrip x)) = none ∧
      substrMatch m (trimWS (beforeParen (cleanPhase (hashStrip x)))) = none) ∨
      normalize_section_name m x ∈ m.map (·.2) := by
  rw [normalize_section_name]
  rcases hdl : dictLookup m (cleanPhase (hashStrip x)) with _ | v
  · rcases hsm : substrMatch m (trimWS (beforeParen (cleanPhase (hashStrip x)))) with _ | w
    · left
      refine ⟨?_, rfl, rfl⟩
      simp only [hsm]
    · right
      simp only [hdl, hsm]
      exact substrMatch_mem hsm
  · right
    simp only [hdl]
    exact dictLookup_mem hdl

/-- C9: section-name normalization is idempotent. For every heading string `x`,
with the repository's NAME_MAPPINGS alias table supplied,
`normalize_section_name (normalize_section_name x)` equals
`normalize_section_name x`. -/
theorem normalize_section_name_idem (x : Str) :
    normalize_section_name NAME_MAPPINGS (normalize_section_name NAME_MAPPINGS x) =
      normalize_section_name NAME_MAPPINGS x := by
  rcases normalize_cases NAME_MAPPINGS x with ⟨hc, hdl, hsm⟩ | hv
  · rw [hc]
    have h : IsNormal (cleanPhase (hashStrip x)) := cleanPhase_normal _
    have hb : trimWS (beforeParen (cleanPhase (hashStrip x))) = cleanPhase (hashStrip x) := by
      rw [beforeParen_fix h]
      exact trimWS_fix (fun c hcm => (h.headOk c hcm).1) h.lastOk
    rw [hb] at hsm
    rw [normalize_of_normal h]
    simp only [hdl, hsm]
  · exact normalize_fixes_canonical _ hv

/-! ## Claim theorems -/

/-- C2: in an iterative-refinement run with targetScore 90 and maxIterations 3
whose three critique scores are 60, 63 and 64, the loop stops after iteration 3
with exit reason stagnation (not max-iterations), only two refinement calls are
made (three drafts in total, no fourth draft), and the best draft — whose
content the finalization emits — is the iteration-3 draft that scored 64. -/
theorem iterative_stagnation_stops_at_three
    (cleanF : Str → Str) (d0 d1 d2 : Str)
    (issuesF fixesF : Nat → List Str) (r3 : RefineStep) (normF : Str → Str) :
    (summarize_iterative cleanF
        { critic := fun i _ =>
            .report (if i = 1 then 60 else if i = 2 then 63 else 64) (issuesF i) (fixesF i),
          refiner := fun i _ _ _ => if i = 1 then .ok d1 else if i = 2 then .ok d2 else r3 }
        3 90 d0).exit = .stagnation ∧
    (summarize_iterative cleanF
        { critic := fun i _ =>
            .report (if i = 1 then 60 else if i = 2 then 63 else 64) (issuesF i) (fixesF i),
          refiner := fun i _ _ _ => if i = 1 then .ok d1 else if i = 2 then .ok d2 else r3 }
        3 90 d0).iterations = 3 ∧
    (summarize_iterative cleanF
        { critic := fun i _ =>
            .report (if i = 1 then 60 else if i = 2 then 63 else 64) (issuesF i) (fixesF i),
          refiner := fun i _ _ _ => if i = 1 then .ok d1 else if i = 2 then .ok d2 else r3 }
        3 90 d0).state.refine_calls = 2 ∧
    (summarize_iterative cleanF
        { critic := fun i _ =>
            .report (if i = 1 then 60 else if i = 2 then 63 else 64) (issuesF i) (fixesF i),
          refiner := fun i _ _ _ => if i = 1 then .ok d1 else if i = 2 then .ok d2 else r3 }
        3 90 d0).state.best_draft = ⟨cleanF d2, 64, 3⟩ ∧
    iterative_final_content normF []
      (summarize_iterative cleanF
        { critic := fun i _ =>
            .report (if i = 1 then 60 else if i = 2 then 63 else 64) (issuesF i) (fixesF i),
          refiner := fun i _ _ _ => if i = 1 then .ok d1 else if i = 2 then .ok d2 else r3 }
        3 90 d0) = normF (cleanF d2) := by
  refine ⟨?_, ?_, ?_, ?_, ?_⟩ <;>
    simp [summarize_iterative, iter_loop_go, initIterState, iterative_final_content,
      gate_target, gate_acceptable, gate_stagnation_hit]


lemma gate_target_false {score ts : ℤ} (h : score < ts) : gate_target score ts = false := by
  simp [gate_target]; omega

lemma gate_acceptable_false {score ts : ℤ} (issues : List Str) (h : score < ts - 10) :
    gate_acceptable score ts issues = false := by
  simp only [gate_acceptable]
  rw [decide_eq_false (by omega), Bool.false_and]

lemma gate_stag_one (score prev : ℤ) : gate_stagnation_hit 1 score prev = false := by
  simp [gate_stagnation_hit]

lemma gate_stag_two (score prev : ℤ) :
    gate_stagnation_hit 2 score prev = decide (score - prev < 5) := by
  simp [gate_stagnation_hit]

/-- C6: RefinementState is seeded with best score 0, and under the
strictly-greater replacement rule the first critique result becomes the new
best for every possible nonnegative score, including 0: after iteration 1's
critique the best draft's content is iteration 1's draft and the best score
equals that critique's score. -/
theorem iterative_first_critique_becomes_best
    (cleanF : Str → Str) (env : IterEnv) (target : ℤ) (d0 : Str) (s : ℤ)
    (issues fixes : List Str)
    (hcrit : env.critic 1 d0 = .report s issues fixes) (hs : 0 ≤ s) :
    (initIterState d0).best_draft = ⟨d0, 0, 0⟩ ∧
    (summarize_iterative cleanF env 1 target d0).state.best_draft.content = d0 ∧
    (summarize_iterative cleanF env 1 target d0).state.best_draft.score = s := by
  refine ⟨rfl, ?_, ?_⟩ <;>
  · rcases lt_or_eq_of_le hs with hpos | hzero
    · simp only [summarize_iterative, iter_loop_go, initIterState, hcrit, hpos, if_pos]
      split_ifs <;> simp [gate_stag_one]
    · simp only [summarize_iterative, iter_loop_go, initIterState, hcrit, ← hzero]
      split_ifs <;> simp [gate_stag_one]

/-- Witness for C6: a concrete run whose very first critique scores 0 still
ends with the initial draft as best at score 0. -/
theorem iterative_first_critique_becomes_best_witness :
    (IterEnv.mk (fun _ _ => .report 0 [] []) (fun _ _ _ _ => .err)).critic 1
        (strL "draf awal") = .report 0 [] [] ∧ (0 : ℤ) ≤ 0 ∧
      ((initIterState (strL "draf awal")).best_draft = ⟨strL "draf awal", 0, 0⟩ ∧
        (summarize_iterative id
          (IterEnv.mk (fun _ _ => .report 0 [] []) (fun _ _ _ _ => .err)) 1 90
          (strL "draf awal")).state.best_draft.content = strL "draf awal" ∧
        (summarize_iterative id
          (IterEnv.mk (fun _ _ => .report 0 [] []) (fun _ _ _ _ => .err)) 1 90
          (strL "draf awal")).state.best_draft.score = 0) :=
  ⟨rfl, by decide,
    iterative_first_critique_becomes_best id _ 90 (strL "draf awal") 0 [] [] rfl (by decide)⟩

/-- Loop invariant behind C7: from any reachable loop entry, a run that exits
because a refinement call failed carries a critique trace from its entry
iteration to its exit iteration, its best draft is the fold of that trace over
the entry best, its refinement-call count grew by one less than the trace
length, the trace covers consecutive iterations, and the exit iteration lies
strictly below max_iterations. -/
lemma iter_loop_refine_failure (cleanF : Str → Str) (env : IterEnv)
    (maxIter : Nat) (target : ℤ) :
    ∀ fuel st, fuel ≤ maxIter →
      ((iter_loop_go cleanF env maxIter target fuel st).exit = .refine_failed ∨
        (iter_loop_go cleanF env maxIter target fuel st).exit = .refine_raised) →
      ∃ history : List BestDraft,
        CritTrace cleanF env (maxIter - fuel + 1) st.current_draft history
            (iter_loop_go cleanF env maxIter target fuel st).iterations ∧
          (iter_loop_go cleanF env maxIter target fuel st).state.best_draft =
            bestAfter st.best_draft history ∧
          (iter_loop_go cleanF env maxIter target fuel st).state.refine_calls + 1 =
            st.refine_calls + history.length ∧
          (iter_loop_go cleanF env maxIter target fuel st).iterations + 1 =
            (maxIter - fuel + 1) + history.length ∧
          (iter_loop_go cleanF env maxIter target fuel st).iterations < maxIter := by
  intro fuel
  induction fuel with
  | zero =>
    intro st hle hfail
    simp [iter_loop_go] at hfail
  | succ fuel ih =>
    intro st hle
    simp only [iter_loop_go]
    split
    case h_1 =>
      rintro (h | h) <;> simp at h
    case h_2 =>
      rename_i s issues fixes hcrit
      by_cases hg1 : gate_target s target = true
      · simp only [if_pos hg1]
        rintro (h | h) <;> simp at h
      simp only [if_neg hg1]
      by_cases hg2 : gate_acceptable s target issues = true
      · simp only [if_pos hg2]
        rintro (h | h) <;> simp at h
      simp only [if_neg hg2]
      by_cases hg3 : (gate_stagnation_hit (maxIter - (fuel + 1) + 1) s st.prev_score &&
          decide (st.stagnation_counter + 1 ≥ 2)) = true
      · simp only [if_pos hg3]
        rintro (h | h) <;> simp at h
      simp only [if_neg hg3]
      by_cases hend : (maxIter - (fuel + 1) == maxIter - 1) = true
      · simp only [if_pos hend]
        rintro (h | h) <;> simp at h
      simp only [if_neg hend]
      simp only [beq_iff_eq] at hend
      simp only [apply_ite IterState.current_draft, apply_ite IterState.best_draft,
        apply_ite IterState.refine_calls, apply_ite IterState.prev_score, ite_self]
      cases hre : env.refiner (maxIter - (fuel + 1) + 1) st.current_draft issues fixes with
      | ok content =>
        dsimp only
        intro hfail
        obtain ⟨h', ht, hb, hrc, hk, hlt⟩ := ih _ (by omega) hfail
        refine ⟨⟨st.current_draft, s, maxIter - (fuel + 1) + 1⟩ :: h', ?_, ?_, ?_, ?_, hlt⟩
        · have hidx : maxIter - fuel + 1 = (maxIter - (fuel + 1) + 1) + 1 := by omega
          rw [hidx] at ht
          exact CritTrace.step _ _ _ _ _ _ _ _ hcrit hre ht
        · rw [hb]
          simp [bestAfter]
        · simp only [List.length_cons]
          dsimp only at hrc
          omega
        · simp only [List.length_cons]
          omega
      | err =>
        dsimp only
        intro _
        refine ⟨[⟨st.current_draft, s, maxIter - (fuel + 1) + 1⟩], ?_, ?_, ?_, ?_, ?_⟩
        · exact CritTrace.last _ _ _ _ _ hcrit (Or.inl hre)
        · simp [apply_ite IterState.best_draft, bestAfter]
        · simp [apply_ite IterState.refine_calls]
        · simp
        · omega
      | crash =>
        dsimp only
        intro _
        refine ⟨[⟨st.current_draft, s, maxIter - (fuel + 1) + 1⟩], ?_, ?_, ?_, ?_, ?_⟩
        · exact CritTrace.last _ _ _ _ _ hcrit (Or.inr hre)
        · simp [apply_ite IterState.best_draft, bestAfter]
        · simp [apply_ite IterState.refine_calls]
        · simp
        · omega

/-- C7: for every iterative-refinement run — any cleaner and normalizer, any
schedule of critic and refiner behaviours, any max_iterations and
target_score, any initial draft — in which a refinement call fails (returns no
content or raises), the loop terminates early, strictly before the
max_iterations budget; the run observed exactly one critique per executed
iteration, chained by refinements that all succeeded except the last
(the critique trace), so one fewer refinement call than iterations was made
and no draft beyond those critiqued was generated; and the operation still
completes with a Done payload whose content is the best draft recorded so far
— the strictly-greater fold of precisely those critiques over the seed —
normalized, with references appended, rather than an error-only outcome. -/
theorem iterative_refine_failure_returns_best
    (cleanF normF : Str → Str) (refs_markdown : Str) (env : IterEnv)
    (max_iterations : Nat) (target_score : ℤ) (d0 : Str)
    (hfail :
      (summarize_iterative cleanF env max_iterations target_score d0).exit =
          ExitReason.refine_failed ∨
        (summarize_iterative cleanF env max_iterations target_score d0).exit =
          ExitReason.refine_raised) :
    (summarize_iterative cleanF env max_iterations target_score d0).iterations <
        max_iterations ∧
      ∃ history : List BestDraft,
        CritTrace cleanF env 1 d0 history
            (summarize_iterative cleanF env max_iterations target_score d0).iterations ∧
          history.length =
              (summarize_iterative cleanF env max_iterations target_score d0).iterations ∧
            (summarize_iterative cleanF env max_iterations target_score
                    d0).state.refine_calls + 1 = history.length ∧
              (summarize_iterative cleanF env max_iterations target_score
                    d0).state.best_draft = bestAfter ⟨d0, 0, 0⟩ history ∧
                iterative_final_content normF refs_markdown
                    (summarize_iterative cleanF env max_iterations target_score d0) =
                  if !refs_markdown.isEmpty then
                    normF (bestAfter ⟨d0, 0, 0⟩ history).content ++ refs_markdown
                  else normF (bestAfter ⟨d0, 0, 0⟩ history).content := by
  simp only [summarize_iterative] at hfail ⊢
  obtain ⟨h', ht, hb, hrc, hk, hlt⟩ :=
    iter_loop_refine_failure cleanF env max_iterations target_score max_iterations
      (initIterState d0) (le_refl _) hfail
  simp only [Nat.sub_self, Nat.zero_add] at ht hk
  refine ⟨hlt, h', ht, ?_, ?_, hb, ?_⟩
  · omega
  · have h0 : (initIterState d0).refine_calls = 0 := rfl
    rw [h0] at hrc
    omega
  · simp only [iterative_final_content]
    rw [hb]
    rfl

/-- Witness for C7 at the spec's own scenario: scores 60 then 63 with the
refinement call at iteration 2 returning no content; the run exits with
refine_failed and the general theorem applies. -/
theorem iterative_refine_failure_returns_best_witness :
    ((summarize_iterative id
          { critic := fun i _ => .report (if i = 1 then 60 else 63) [] [],
            refiner := fun i _ _ _ => if i = 1 then .ok (strL "draf dua") else .err }
          3 90 (strL "draf satu")).exit = ExitReason.refine_failed ∨
      (summarize_iterative id
          { critic := fun i _ => .report (if i = 1 then 60 else 63) [] [],
            refiner := fun i _ _ _ => if i = 1 then .ok (strL "draf dua") else .err }
          3 90 (strL "draf satu")).exit = ExitReason.refine_raised) ∧
    ((summarize_iterative id
          { critic := fun i _ => .report (if i = 1 then 60 else 63) [] [],
            refiner := fun i _ _ _ => if i = 1 then .ok (strL "draf dua") else .err }
          3 90 (strL "draf satu")).iterations < 3 ∧
      ∃ history : List BestDraft,
        CritTrace id
            { critic := fun i _ => .report (if i = 1 then 60 else 63) [] [],
              refiner := fun i _ _ _ => if i = 1 then .ok (strL "draf dua") else .err }
            1 (strL "draf satu") history
            (summarize_iterative id
              { critic := fun i _ => .report (if i = 1 then 60 else 63) [] [],
                refiner := fun i _ _ _ => if i = 1 then .ok (strL "draf dua") else .err }
              3 90 (strL "draf satu")).iterations ∧
          history.length =
              (summarize_iterative id
                { critic := fun i _ => .report (if i = 1 then 60 else 63) [] [],
                  refiner := fun i _ _ _ => if i = 1 then .ok (strL "draf dua") else .err }
                3 90 (strL "draf satu")).iterations ∧
            (summarize_iterative id
                  { critic := fun i _ => .report (if i = 1 then 60 else 63) [] [],
                    refiner := fun i _ _ _ => if i = 1 then .ok (strL "draf dua") else .err }
                  3 90 (strL "draf satu")).state.refine_calls + 1 = history.length ∧
              (summarize_iterative id
                    { critic := fun i _ => .report (if i = 1 then 60 else 63) [] [],
                      refiner := fun i _ _ _ => if i = 1 then .ok (strL "draf dua") else .err }
                    3 90 (strL "draf satu")).state.best_draft =
                  bestAfter ⟨strL "draf satu", 0, 0⟩ history ∧
                iterative_final_content id ([] : Str)
                    (summarize_iterative id
                      { critic := fun i _ => .report (if i = 1 then 60 else 63) [] [],
                        refiner := fun i _ _ _ => if i = 1 then .ok (strL "draf dua") else .err }
                      3 90 (strL "draf satu")) =
                  if !([] : Str).isEmpty then
                    id (bestAfter ⟨strL "draf satu", 0, 0⟩ history).content ++ ([] : Str)
                  else id (bestAfter ⟨strL "draf satu", 0, 0⟩ history).content) :=
  ⟨Or.inl (by decide),
    iterative_refine_failure_returns_best id id ([] : Str)
      { critic := fun i _ => .report (if i = 1 then 60 else 63) [] [],
        refiner := fun i _ _ _ => if i = 1 then .ok (strL "draf dua") else .err }
      3 90 (strL "draf satu") (Or.inl (by decide))⟩

lemma collectDrafts_first :
    ∀ (k : Nat) (rs : List (Option (Str × Usage))) (c : Str) (u : Usage),
      rs.get? k = some (some (c, u)) → (∀ j < k, rs.get? j = some none) →
      ∃ t, (collectDrafts rs).1 = c :: t := by
  intro k
  induction k with
  | zero =>
    intro rs c u hk hfirst
    cases rs with
    | nil => simp at hk
    | cons r rest =>
      simp only [List.get?_cons_zero, Option.some.injEq] at hk
      subst hk
      exact ⟨(collectDrafts rest).1, rfl⟩
  | succ k ih =>
    intro rs c u hk hfirst
    cases rs with
    | nil => simp at hk
    | cons r rest =>
      have h0 := hfirst 0 (Nat.succ_pos k)
      simp only [List.get?_cons_zero, Option.some.injEq] at h0
      subst h0
      simp only [List.get?_cons_succ] at hk
      exact ih rest c u hk (fun j hj => by
        have := hfirst (j + 1) (Nat.succ_lt_succ hj)
        simpa using this)

/-- C4: in a tournament run where at least one draft succeeds and the judge
call fails, the result is the judging-failure dict that still carries the
first successful draft as the caller-visible fallback payload together with
the usage accumulated so far — the successful drafts' work is not silently
discarded. -/
theorem tournament_judge_failure_keeps_first_draft
    (cleanF normF : Str → Str) (refs : Str) (n : Nat)
    (draft_results : List (Option (Str × Usage))) (msg : Str)
    (k : Nat) (c : Str) (u : Usage) (hn : 1 ≤ n)
    (hk : draft_results.get? k = some (some (c, u)))
    (hfirst : ∀ j < k, draft_results.get? j = some none) :
    summarize_tournament cleanF normF refs false n draft_results (.fail msg) =
      .judging_failed (strL "Judging failed: " ++ msg) c (collectDrafts draft_results).2 := by
  obtain ⟨t, ht⟩ := collectDrafts_first k draft_results c u hk hfirst
  simp [summarize_tournament, ht, Nat.not_lt_of_le hn]

/-- Witness for C4: two drafts attempted, the first fails, the second succeeds;
the judge fails and the result retains the succeeding draft and its usage. -/
theorem tournament_judge_failure_keeps_first_draft_witness :
    1 ≤ 3 ∧
    ([none, some (strL "draf sukses", Usage.mk 10 20 30)] :
        List (Option (Str × Usage))).get? 1 = some (some (strL "draf sukses", ⟨10, 20, 30⟩)) ∧
    summarize_tournament id id [] false 3
        [none, some (strL "draf sukses", ⟨10, 20, 30⟩)] (.fail (strL "kuota habis")) =
      .judging_failed (strL "Judging failed: " ++ strL "kuota habis") (strL "draf sukses")
        (collectDrafts [none, some (strL "draf sukses", ⟨10, 20, 30⟩)]).2 :=
  ⟨by decide, by decide,
    tournament_judge_failure_keeps_first_draft id id [] 3
      [none, some (strL "draf sukses", ⟨10, 20, 30⟩)] (strL "kuota habis") 1
      (strL "draf sukses") ⟨10, 20, 30⟩ (by decide) (by decide)
      (by intro j hj; interval_cases j; decide)⟩

/-- C5 counterexample: with a retry cap of 3, a whitespace-only successful
backend response is surfaced as an EmptyContent failure after exactly one
Generation Client call — the call is not retried up to the cap. -/
theorem empty_content_not_retried_cex :
    synthesize_section id (fun _ => .success (strL "   ") ⟨5, 0, 5⟩) 3 =
      (.err (strL "EmptyContent"), 1) := by decide

/-- C5 amended: a backend response whose text is empty or whitespace-only is
classified as an EmptyContent failure rather than accepted as a valid draft,
and the error is surfaced immediately after that single call — the retry loop
of _synthesize_section applies only to raised exceptions, so EmptyContent is
never retried. -/
theorem empty_content_fails_immediately
    (cleanF : Str → Str) (backend : Nat → ApiStep) (max_retries : Nat)
    (content : Str) (u : Usage) (hmr : 1 ≤ max_retries)
    (hb : backend 0 = .success content u) (hws : (trimWS content).isEmpty = true) :
    synthesize_section cleanF backend max_retries = (.err (strL "EmptyContent"), 1) := by
  obtain ⟨m, rfl⟩ : ∃ m, max_retries = m + 1 := ⟨max_retries - 1, by omega⟩
  simp [synthesize_section, synthesize_section_go, hb, hws]

/-- Witness for C5's amended claim at a concrete whitespace-only response. -/
theorem empty_content_fails_immediately_witness :
    1 ≤ 3 ∧ ((fun _ => ApiStep.success (strL " ") ⟨1, 1, 2⟩) : Nat → ApiStep) 0 =
        .success (strL " ") ⟨1, 1, 2⟩ ∧ (trimWS (strL " ")).isEmpty = true ∧
      synthesize_section id (fun _ => .success (strL " ") ⟨1, 1, 2⟩) 3 =
        (.err (strL "EmptyContent"), 1) :=
  ⟨by decide, rfl, by decide,
    empty_content_fails_immediately id _ 3 (strL " ") ⟨1, 1, 2⟩ (by decide) rfl (by decide)⟩

/-- C8: when zero drafts' extracted sections match canonical section S, the
task for S falls back to the K whole drafts as its synthesis input, is flagged
use_full_context = true (usedFullDraftFallback), and the prompt builder
truncates each non-blank whole draft to the 1000-character full-context
budget. -/
theorem zero_fragments_full_draft_fallback
    (drafts : List Str) (maps : List (List (Str × Str))) (S : Str) (i : Nat)
    (hnone : ∀ sections ∈ maps, match_section_in_draft S sections = none) :
    (buildSectionTask drafts maps S i).contents = drafts ∧
    (buildSectionTask drafts maps S i).use_full_context = true ∧
    synthesis_prompt_sources (buildSectionTask drafts maps S i).contents
        (buildSectionTask drafts maps S i).use_full_context =
      (drafts.filter hasContentB).map (fun c => c.take 1000) := by
  have hfm : maps.filterMap (fun sections =>
      match match_section_in_draft S sections with
      | some v => if v.isEmpty then none else some v
      | none => none) = [] := by
    rw [List.filterMap_eq_nil_iff]
    intro sections hs
    rw [hnone sections hs]
  have htask : buildSectionTask drafts maps S i =
      { name := S, contents := drafts, use_full_context := true, index := i } := by
    unfold buildSectionTask
    rw [hfm]
    rfl
  rw [htask]
  exact ⟨rfl, rfl, by simp [synthesis_prompt_sources]⟩

/-- Witness for C8: two drafts whose extracted SectionMaps are both empty; the
first canonical section's task carries the whole drafts, flagged as fallback,
truncated to 1000 characters each. -/
theorem zero_fragments_full_draft_fallback_witness :
    (∀ sections ∈ ([[], []] : List (List (Str × Str))),
        match_section_in_draft (strL "EXECUTIVE SUMMARY & CORE THESIS") sections = none) ∧
    ((buildSectionTask [strL "draf pertama", strL "draf kedua"] [[], []]
        (strL "EXECUTIVE SUMMARY & CORE THESIS") 0).contents =
      [strL "draf pertama", strL "draf kedua"] ∧
    (buildSectionTask [strL "draf pertama", strL "draf kedua"] [[], []]
        (strL "EXECUTIVE SUMMARY & CORE THESIS") 0).use_full_context = true ∧
    synthesis_prompt_sources
        (buildSectionTask [strL "draf pertama", strL "draf kedua"] [[], []]
          (strL "EXECUTIVE SUMMARY & CORE THESIS") 0).contents
        (buildSectionTask [strL "draf pertama", strL "draf kedua"] [[], []]
          (strL "EXECUTIVE SUMMARY & CORE THESIS") 0).use_full_context =
      (([strL "draf pertama", strL "draf kedua"] : List Str).filter hasContentB).map
        (fun c => c.take 1000)) :=
  ⟨by decide,
    zero_fragments_full_draft_fallback [strL "draf pertama", strL "draf kedua"] [[], []]
      (strL "EXECUTIVE SUMMARY & CORE THESIS") 0 (by decide)⟩

lemma synthesize_section_go_calls_le (cleanF : Str → Str) (backend : Nat → ApiStep)
    (max_retries : Nat) :
    ∀ fuel calls, calls ≤ (synthesize_section_go cleanF backend max_retries fuel calls).2 := by
  intro fuel
  induction fuel with
  | zero => intro calls; simp [synthesize_section_go]
  | succ fuel ih =>
    intro calls
    simp only [synthesize_section_go]
    split
    · split <;> simp
    · split
      · simp
      · split
        · simp
        · exact le_trans (Nat.le_succ calls) (ih (calls + 1))

lemma synthesize_section_calls_pos (cleanF : Str → Str) (backend : Nat → ApiStep)
    (max_retries : Nat) (h : 1 ≤ max_retries) :
    1 ≤ (synthesize_section cleanF backend max_retries).2 := by
  obtain ⟨m, rfl⟩ : ∃ m, max_retries = m + 1 := ⟨max_retries - 1, by omega⟩
  rw [synthesize_section]
  simp only [synthesize_section_go]
  split
  · split <;> simp
  · split
    · simp
    · split
      · simp
      · exact le_trans (by omega) (synthesize_section_go_calls_le cleanF backend (m + 1) m 1)


/-- C1 counterexample: exactly one of the two drafts' SectionMaps contains
ANALYTICAL FRAMEWORK, yet the section task still issues one Generation Client
call (not zero), the synthesized content is the model's output rather than the
fragment unchanged, and the dominance label is "merged", not "SingleSource". -/
theorem single_fragment_cex :
    (run_section_synthesis id (fun _ => .success (strL "keluaran model") ⟨3, 4, 7⟩) 3
        (buildSectionTask [strL "draf satu", strL "draf dua"]
          [[(strL "ANALYTICAL FRAMEWORK", strL "isi kerangka")], []]
          (strL "ANALYTICAL FRAMEWORK") 1)).2 = 1 ∧
    (run_section_synthesis id (fun _ => .success (strL "keluaran model") ⟨3, 4, 7⟩) 3
        (buildSectionTask [strL "draf satu", strL "draf dua"]
          [[(strL "ANALYTICAL FRAMEWORK", strL "isi kerangka")], []]
          (strL "ANALYTICAL FRAMEWORK") 1)).1 = .ok (strL "keluaran model") ⟨3, 4, 7⟩ ∧
    section_dominance_label (fun _ _ => 0)
        (buildSectionTask [strL "draf satu", strL "draf dua"]
          [[(strL "ANALYTICAL FRAMEWORK", strL "isi kerangka")], []]
          (strL "ANALYTICAL FRAMEWORK") 1) (strL "keluaran model") = strL "merged" := by
  have ht : buildSectionTask [strL "draf satu", strL "draf dua"]
      [[(strL "ANALYTICAL FRAMEWORK", strL "isi kerangka")], []]
      (strL "ANALYTICAL FRAMEWORK") 1 =
      ⟨strL "ANALYTICAL FRAMEWORK", [strL "isi kerangka"], false, 1⟩ := by decide
  rw [ht]
  refine ⟨by decide, by decide, ?_⟩
  simp only [section_dominance_label, List.map_cons, List.map_nil, listMaxQ, List.foldl,
    Bool.not_false, List.isEmpty_cons, Bool.and_true]
  norm_num

/-- C1 amended: when exactly one of the K drafts' SectionMaps yields a
fragment for canonical section S, the task synthesizes from that single
fragment (no full-draft fallback), but the orchestrator still issues at least
one Generation Client call for S — exactly one when the first call succeeds —
the stored section content is the model's cleaned output rather than the
fragment as-is, and the dominance label is draft_1_dominant when the result's
similarity to the fragment exceeds 0.7 and merged otherwise, never the spec's
SingleSource. -/
theorem single_fragment_still_calls_client
    (drafts : List Str) (maps : List (List (Str × Str))) (S frag : Str) (i : Nat)
    (hone : maps.filterMap (fun sections =>
        match match_section_in_draft S sections with
        | some v => if v.isEmpty then none else some v
        | none => none) = [frag]) :
    (buildSectionTask drafts maps S i).contents = [frag] ∧
    (buildSectionTask drafts maps S i).use_full_context = false ∧
    (∀ cleanF backend max_retries, 1 ≤ max_retries →
      1 ≤ (run_section_synthesis cleanF backend max_retries
            (buildSectionTask drafts maps S i)).2) ∧
    (∀ cleanF backend max_retries content u, 1 ≤ max_retries →
      backend 0 = .success content u → (trimWS content).isEmpty = false →
      run_section_synthesis cleanF backend max_retries (buildSectionTask drafts maps S i) =
        (.ok (cleanF content) u, 1)) ∧
    (∀ simF res, section_dominance_label simF (buildSectionTask drafts maps S i) res =
        (if simF frag res > 7/10 then strL "draft_1_dominant" else strL "merged") ∧
      section_dominance_label simF (buildSectionTask drafts maps S i) res ≠
        strL "SingleSource") := by
  have htask : buildSectionTask drafts maps S i =
      { name := S, contents := [frag], use_full_context := false, index := i } := by
    unfold buildSectionTask
    rw [hone]
    rfl
  rw [htask]
  refine ⟨rfl, rfl, ?_, ?_, ?_⟩
  · intro cleanF backend max_retries hmr
    exact synthesize_section_calls_pos cleanF backend max_retries hmr
  · intro cleanF backend max_retries content u hmr hb hws
    obtain ⟨m, rfl⟩ : ∃ m, max_retries = m + 1 := ⟨max_retries - 1, by omega⟩
    simp [run_section_synthesis, synthesize_section, synthesize_section_go, hb, hws]
  · intro simF res
    constructor
    · simp only [section_dominance_label, List.map_cons, List.map_nil, listMaxQ, List.foldl,
        List.indexOf_cons_self, Bool.not_false, List.isEmpty_cons, Bool.and_true]
      norm_num
      split
      · decide
      · rfl
    · simp only [section_dominance_label, List.map_cons, List.map_nil, listMaxQ, List.foldl,
        List.indexOf_cons_self, Bool.not_false, List.isEmpty_cons, Bool.and_true]
      norm_num
      split
      · decide
      · decide

/-- Witness for C1's amended claim at a concrete single-fragment setup. -/
theorem single_fragment_still_calls_client_witness :
    ([[(strL "ANALYTICAL FRAMEWORK", strL "isi kerangka")], []] :
        List (List (Str × Str))).filterMap (fun sections =>
        match match_section_in_draft (strL "ANALYTICAL FRAMEWORK") sections with
        | some v => if v.isEmpty then none else some v
        | none => none) = [strL "isi kerangka"] ∧
    ((buildSectionTask [strL "draf satu", strL "draf dua"]
        [[(strL "ANALYTICAL FRAMEWORK", strL "isi kerangka")], []]
        (strL "ANALYTICAL FRAMEWORK") 1).contents = [strL "isi kerangka"] ∧
    (buildSectionTask [strL "draf satu", strL "draf dua"]
        [[(strL "ANALYTICAL FRAMEWORK", strL "isi kerangka")], []]
        (strL "ANALYTICAL FRAMEWORK") 1).use_full_context = false ∧
    (∀ cleanF backend max_retries, 1 ≤ max_retries →
      1 ≤ (run_section_synthesis cleanF backend max_retries
            (buildSectionTask [strL "draf satu", strL "draf dua"]
              [[(strL "ANALYTICAL FRAMEWORK", strL "isi kerangka")], []]
              (strL "ANALYTICAL FRAMEWORK") 1)).2) ∧
    (∀ cleanF backend max_retries content u, 1 ≤ max_retries →
      backend 0 = .success content u → (trimWS content).isEmpty = false →
      run_section_synthesis cleanF backend max_retries
          (buildSectionTask [strL "draf satu", strL "draf dua"]
            [[(strL "ANALYTICAL FRAMEWORK", strL "isi kerangka")], []]
            (strL "ANALYTICAL FRAMEWORK") 1) = (.ok (cleanF content) u, 1)) ∧
    (∀ simF res, section_dominance_label simF
          (buildSectionTask [strL "draf satu", strL "draf dua"]
            [[(strL "ANALYTICAL FRAMEWORK", strL "isi kerangka")], []]
            (strL "ANALYTICAL FRAMEWORK") 1) res =
        (if simF (strL "isi kerangka") res > 7/10 then strL "draft_1_dominant"
         else strL "merged") ∧
      section_dominance_label simF
          (buildSectionTask [strL "draf satu", strL "draf dua"]
            [[(strL "ANALYTICAL FRAMEWORK", strL "isi kerangka")], []]
            (strL "ANALYTICAL FRAMEWORK") 1) res ≠ strL "SingleSource")) :=
  ⟨by decide,
    single_fragment_still_calls_client [strL "draf satu", strL "draf dua"]
      [[(strL "ANALYTICAL FRAMEWORK", strL "isi kerangka")], []]
      (strL "ANALYTICAL FRAMEWORK") (strL "isi kerangka") 1 (by decide)⟩

/-- C3 counterexample: a run where one draft succeeded but the reconstruction
is empty; the rescue payload is emitted but its length is 44, far below the
500-character floor — the floor guarantee does not hold. -/
theorem rescue_payload_below_floor_cex :
    (1 ≤ ([strL "pendek"] : List Str).length) ∧
    (reconstruct_document [] []).length < 500 ∧
    synthesis_payload [] [] [strL "pendek"] = rescueLabel ++ strL "pendek" ∧
    (synthesis_payload [] [] [strL "pendek"]).length = 44 ∧ 44 < 500 := by decide

/-- C3 amended: whenever the reconstructed document's length is below the
500-character rescue floor, the emitted payload is the clearly-labeled
concatenation of the first two whole drafts; its length is exactly the
38-character label plus the concatenated drafts, hence at least 38 and
non-empty, but it is not guaranteed to reach the floor when the drafts
themselves are short. -/
theorem rescue_payload_is_labeled_concat
    (synthesized_sections : List (Str × Str)) (refs_markdown : Str) (drafts : List Str)
    (hshort : (reconstruct_document synthesized_sections refs_markdown).length < 500) :
    synthesis_payload synthesized_sections refs_markdown drafts =
      rescueLabel ++ joinSep nl2 (drafts.take 2) ∧
    (synthesis_payload synthesized_sections refs_markdown drafts).length =
      38 + (joinSep nl2 (drafts.take 2)).length ∧
    38 ≤ (synthesis_payload synthesized_sections refs_markdown drafts).length := by
  have hlab : rescueLabel.length = 38 := by decide
  have h1 : synthesis_payload synthesized_sections refs_markdown drafts =
      rescueLabel ++ joinSep nl2 (drafts.take 2) := by
    simp [synthesis_payload, hshort]
  refine ⟨h1, ?_, ?_⟩ <;> rw [h1] <;> simp [hlab]

/-- Witness for C3's amended claim: empty synthesis results with a single
short successful draft trigger the rescue, yielding the 44-character labeled
payload. -/
theorem rescue_payload_is_labeled_concat_witness :
    (reconstruct_document [] []).length < 500 ∧
    (synthesis_payload [] [] [strL "pendek"] =
        rescueLabel ++ joinSep nl2 (([strL "pendek"] : List Str).take 2) ∧
      (synthesis_payload [] [] [strL "pendek"]).length =
        38 + (joinSep nl2 (([strL "pendek"] : List Str).take 2)).length ∧
      38 ≤ (synthesis_payload [] [] [strL "pendek"]).length) :=
  ⟨by decide, rescue_payload_is_labeled_concat [] [] [strL "pendek"] (by decide)⟩

lemma sumQ_bounds {l : List ℚ} (h : ∀ x ∈ l, 0 ≤ x ∧ x ≤ 1) :
    0 ≤ sumQ l ∧ sumQ l ≤ l.length := by
  induction l with
  | nil => simp [sumQ]
  | cons a t ih =>
    have ha := h a (by simp)
    have ht := ih (fun x hx => h x (List.mem_cons_of_mem _ hx))
    simp only [sumQ, List.foldr_cons, List.length_cons] at *
    constructor
    · linarith [ht.1]
    · push_cast
      linarith [ht.2]

lemma pyRoundInt_bounds {x : ℚ} (h0 : 0 ≤ x) (h1 : x ≤ 1000) :
    0 ≤ pyRoundInt x ∧ pyRoundInt x ≤ 1000 := by
  have hf0 : 0 ≤ ⌊x⌋ := Int.floor_nonneg.mpr h0
  have hf1 : ⌊x⌋ ≤ 1000 := by simpa using Int.floor_le_floor h1
  have hfl : (⌊x⌋ : ℚ) ≤ x := Int.floor_le _
  have hf999 : 1/2 ≤ x - ⌊x⌋ → ⌊x⌋ ≤ 999 := by
    intro hr
    by_contra hcon
    push_neg at hcon
    have hq : ((1000:ℤ):ℚ) ≤ (⌊x⌋:ℚ) := by exact_mod_cast hcon
    push_cast at hq
    linarith
  unfold pyRoundInt
  split_ifs with hc1 hc2 hc3
  · exact ⟨hf0, hf1⟩
  · push_neg at hc1
    have := hf999 hc1
    omega
  · exact ⟨hf0, hf1⟩
  · push_neg at hc1
    have := hf999 hc1
    omega

lemma pyRound3_bounds {q : ℚ} (h0 : 0 ≤ q) (h1 : q ≤ 1) :
    0 ≤ pyRound3 q ∧ pyRound3 q ≤ 1 := by
  have hx := pyRoundInt_bounds (x := q * 1000) (by linarith) (by linarith)
  unfold pyRound3
  constructor
  · apply div_nonneg _ (by norm_num)
    exact_mod_cast hx.1
  · rw [div_le_one (by norm_num)]
    exact_mod_cast hx.2

/-- C10: with the similarity ratio supplied by its documented contract
(values in [0,1], and 1 on identical inputs, as difflib.SequenceMatcher's
ratio documents), the computed diversity score always lies in [0,1]; with
fewer than two drafts it is exactly 0; and with two identical drafts it is
exactly 0 in the rational model of the float arithmetic. -/
theorem diversity_score_bounds (simF : Str → Str → ℚ)
    (hb : ∀ a b, 0 ≤ simF a b ∧ simF a b ≤ 1) (hid : ∀ a, simF a a = 1) :
    (∀ drafts, 0 ≤ calculate_draft_diversity simF drafts ∧
      calculate_draft_diversity simF drafts ≤ 1) ∧
    (∀ drafts, drafts.length < 2 → calculate_draft_diversity simF drafts = 0) ∧
    (∀ d, calculate_draft_diversity simF [d, d] = 0) := by
  refine ⟨?_, ?_, ?_⟩
  · intro drafts
    by_cases hlen : drafts.length < 2
    · simp [calculate_draft_diversity, hlen]
    · rw [calculate_draft_diversity, if_neg hlen]
      set sims := ((allPairs (drafts.map (fun d => d.take 1000))).map
        (fun p => simF p.1 p.2)) with hsims
      by_cases hc : sims.length = 0
      · simp [hc]
      · have hball : ∀ x ∈ sims, 0 ≤ x ∧ x ≤ 1 := by
          intro x hx
          rw [hsims] at hx
          rcases List.mem_map.mp hx with ⟨p, hp, rfl⟩
          exact hb p.1 p.2
        have hs := sumQ_bounds hball
        have hcnt : (0:ℚ) < sims.length := by
          have : 0 < sims.length := Nat.pos_of_ne_zero hc
          exact_mod_cast this
        have hmean0 : 0 ≤ sumQ sims / (sims.length : ℚ) := div_nonneg hs.1 (le_of_lt hcnt)
        have hmean1 : sumQ sims / (sims.length : ℚ) ≤ 1 := by
          rw [div_le_one hcnt]
          exact hs.2
        have hr := pyRound3_bounds (q := 1 - sumQ sims / (sims.length : ℚ))
          (by linarith) (by linarith)
        simp only [hc, beq_iff_eq, if_neg]
        simpa [hsims] using hr
  · intro drafts hlen
    simp [calculate_draft_diversity, hlen]
  · intro d
    have h1 : pyRound3 0 = 0 := by
      norm_num [pyRound3, pyRoundInt]
    simp [calculate_draft_diversity, allPairs, sumQ, hid, h1]

/-- Witness for C10 with a similarity function satisfying the documented
contract: boundedness, a sub-two-draft run, and an identical-drafts run all
evaluate as claimed. -/
theorem diversity_score_bounds_witness :
    (∀ a b : Str, 0 ≤ (fun (_ _ : Str) => (1:ℚ)) a b ∧
      (fun (_ _ : Str) => (1:ℚ)) a b ≤ 1) ∧
    (∀ a : Str, (fun (_ _ : Str) => (1:ℚ)) a a = 1) ∧
    (([strL "satu"] : List Str).length < 2) ∧
    calculate_draft_diversity (fun _ _ => (1:ℚ))
      [strL "draf yang sama", strL "draf yang sama"] = 0 ∧
    calculate_draft_diversity (fun _ _ => (1:ℚ)) [strL "satu"] = 0 ∧
    (0 ≤ calculate_draft_diversity (fun _ _ => (1:ℚ)) [strL "dua", "tiga".toList.map Char.toNat] ∧
      calculate_draft_diversity (fun _ _ => (1:ℚ)) [strL "dua", "tiga".toList.map Char.toNat] ≤ 1) :=
  ⟨fun _ _ => ⟨by norm_num, by norm_num⟩, fun _ => rfl, by decide,
    (diversity_score_bounds _ (fun _ _ => ⟨by norm_num, by norm_num⟩) (fun _ => rfl)).2.2 _,
    (diversity_score_bounds _ (fun _ _ => ⟨by norm_num, by norm_num⟩) (fun _ => rfl)).2.1 _
      (by decide),
    (diversity_score_bounds _ (fun _ _ => ⟨by norm_num, by norm_num⟩) (fun _ => rfl)).1 _⟩
